import Mathlib

/-!
Verification of the wordy_srs core (src/knowledge.rs) against its
natural-language specification.

Shallow embedding conventions:
- chrono `Duration` values are modelled as whole seconds (`Int`), matching the
  code, which stores `duration.num_seconds()` and rebuilds via
  `Duration::seconds`.
- timestamps (`DateTime<FixedOffset>` in local time) are modelled as seconds of
  local time since an epoch (`Int`); `datetime(..) < datetime(..)` comparisons
  on RFC3339 strings order exactly like the underlying instants.
- Rust `f64` scheduler arithmetic is modelled exactly over `ℚ`; the lossy
  `as i64` cast in `mul_duration` is modelled as truncation toward zero.
- SQLite tables are lists of records; the schema constraints the code relies on
  (UNIQUE on `words.text` and `sentences.text`, NULL defaults for
  `next_review_at` and `date_first_reviewed`) live in the migrations, which are
  not part of src/, and are modelled from the spec data model (section 3).
- SQL `NULL` timestamps are `Option.none`; any `datetime` comparison against
  NULL is false, as in SQLite.
-/

/-- SM-2 scheduler state, from `struct SuperMemoItem` (knowledge.rs line 12).
The field name `repitition` keeps the spelling used by the source. -/
structure SuperMemoItem where
  repitition : Nat
  duration : Int
  e_factor : ℚ
deriving DecidableEq

/-- Rust `as i64` conversion of a nonnegative-or-negative real: truncation
toward zero. -/
def rustTrunc (x : ℚ) : Int := if 0 ≤ x then ⌊x⌋ else ⌈x⌉

/-- Embedding of `mul_duration` (knowledge.rs line 28): seconds are scaled by
the multiplier and truncated back to whole seconds. -/
def mul_duration (duration : Int) (multiplier : ℚ) : Int :=
  rustTrunc ((duration : ℚ) * multiplier)

/-- Embedding of `super_memo_2` (knowledge.rs lines 33-59).
`Duration::minutes(10)` is 600 seconds and `Duration::days(1)` is 86400. -/
def super_memo_2 (item : SuperMemoItem) (response_quality : ℚ) : SuperMemoItem :=
  let repitition := if response_quality < 3 then 0 else item.repitition
  match repitition with
  | 0 => ⟨1, 600, item.e_factor⟩
  | 1 => ⟨2, 86400, item.e_factor⟩
  | r + 2 =>
    let e_factor :=
      max (13 / 10)
        (item.e_factor + (1 / 10 - (5 - response_quality) * (2 / 25 + (5 - response_quality) * (1 / 50))))
    ⟨r + 2 + 1, mul_duration item.duration e_factor, e_factor⟩

/-- Terminator characters of `iterate_sentences` (knowledge.rs line 93). -/
def terminators (c : Char) : Bool :=
  c == '。' || c == '\n' || c == '！' || c == '？'

/-- Opening quote characters (knowledge.rs line 94). -/
def open_quotes (c : Char) : Bool :=
  c == '「' || c == '『' || c == '（'

/-- Closing quote characters (knowledge.rs line 95). -/
def close_quotes (c : Char) : Bool :=
  c == '」' || c == '』' || c == '）'

/-- Rust `char::is_whitespace`: membership in the Unicode White_Space set,
used by `str::trim`. -/
def isRustWhitespace (c : Char) : Bool :=
  [0x9, 0xA, 0xB, 0xC, 0xD, 0x20, 0x85, 0xA0, 0x1680,
   0x2000, 0x2001, 0x2002, 0x2003, 0x2004, 0x2005, 0x2006, 0x2007,
   0x2008, 0x2009, 0x200A, 0x2028, 0x2029, 0x202F, 0x205F, 0x3000].contains c.toNat

/-- Rust `str::trim` on a character list: drop whitespace from both ends. -/
def rustTrim (l : List Char) : List Char :=
  ((l.dropWhile isRustWhitespace).reverse.dropWhile isRustWhitespace).reverse

/-- Loop state of `iterate_sentences` (knowledge.rs lines 97-99): the nesting
depth, the accumulated current span, and the sentences emitted so far. -/
structure ScanState where
  depth : Int
  curr : List Char
  sentences : List (List Char)
deriving DecidableEq

/-- One iteration of the character loop of `iterate_sentences`
(knowledge.rs lines 100-118). -/
def scanStep (st : ScanState) (c : Char) : ScanState :=
  let curr := st.curr ++ [c]
  if open_quotes c then ⟨st.depth + 1, curr, st.sentences⟩
  else if close_quotes c then ⟨st.depth - 1, curr, st.sentences⟩
  else if st.depth == 0 && terminators c then
    let s := rustTrim curr
    ⟨st.depth, [], if s == [] then st.sentences else st.sentences ++ [s]⟩
  else ⟨st.depth, curr, st.sentences⟩

/-- Embedding of `iterate_sentences` (knowledge.rs lines 92-120): fold the
step over the characters and keep the emitted sentences; whatever remains in
the accumulator at the end of the text is dropped. -/
def iterate_sentences (text : String) : List String :=
  ((text.data.foldl scanStep ⟨0, [], []⟩).sentences).map (fun l => String.mk l)

/-- Depth evolution of one scanner step, isolated from emission. -/
def depthStep (d : Int) (c : Char) : Int :=
  if open_quotes c then d + 1 else if close_quotes c then d - 1 else d

/-- No terminator character of the list is reached while the running depth,
started at `d`, is 0 - so the scanner would emit nothing on this list. -/
def noDepth0Term : Int → List Char → Bool
  | _, [] => true
  | d, c :: cs => !(d == 0 && terminators c) && noDepth0Term (depthStep d c) cs

/-- Local hour of a timestamp, in seconds of local time:
`chrono::Timelike::hour`. Division and remainder are euclidean, which agrees
with clock reading for the nonnegative timestamps the clock produces. -/
def hourOf (t : Int) : Int := t / 3600 % 24

/-- Embedding of `chrono::Timelike::with_hour`: replace the hour component
while keeping day, minutes, and seconds. -/
def withHour (h t : Int) : Int := t - hourOf t * 3600 + h * 3600

/-- Embedding of `get_end_of_day_time` (knowledge.rs lines 308-319): with a
day-end hour of 4, take the current day when the hour is below 4, otherwise
the next day, and set the hour component to 4 (minutes and seconds of `now`
are kept, since `with_hour` only changes the hour). -/
def get_end_of_day_time (t : Int) : Int :=
  if hourOf t < 4 then withHour 4 t else withHour 4 (t + 86400)

/-- Four in the morning of the day containing `t`, exactly as the claim words
it (04:00 local time of the current day). -/
def fourAmOfCurrentDay (t : Int) : Int := t / 86400 * 86400 + 14400

/-- Row of the `words` table. Field names follow the schema used by
knowledge.rs (including the `repitition` spelling); `next_review_at` and
`date_first_reviewed` are NULL (none) until the first review, per the
spec data model, since `add_words_to_sentence` never sets them. -/
structure Word where
  id : Int
  text : String
  count : Int
  frequency : Int
  reviewed : Bool
  repitition : Nat
  e_factor : ℚ
  review_duration : Int
  next_review_at : Option Int
  date_first_reviewed : Option Int
  date_added : Int
deriving DecidableEq

/-- Row of the `sentences` table. -/
structure Sentence where
  id : Int
  text : String
  source : String
  date_added : Int
deriving DecidableEq

/-- The persistent store: the three tables of the schema plus the next rowid
for each autoincremented table (SQLite rowids start at 1). A link is a
`(word_id, sentence_id)` pair. -/
structure KnowledgeDb where
  words : List Word
  sentences : List Sentence
  links : List (Int × Int)
  next_word_id : Int
  next_sentence_id : Int
deriving DecidableEq

/-- SQL comparison `datetime(x) < datetime(y)` where `x` may be NULL: a NULL
operand makes the comparison falsy. -/
def optLt (o : Option Int) (t : Int) : Bool :=
  match o with
  | none => false
  | some n => decide (n < t)

/-- The WHERE clause of `get_review_info` (knowledge.rs lines 536-540), with
SQL precedence (AND binds tighter than OR):
`reviewed = TRUE AND next_review_at < eod AND review_duration >= 86400
 OR next_review_at < now`. -/
def due_sql (now eod : Int) (w : Word) : Bool :=
  (w.reviewed && optLt w.next_review_at eod && decide ((86400 : Int) ≤ w.review_duration))
    || optLt w.next_review_at now

/-- Embedding of `get_review_info` (knowledge.rs lines 531-550): COUNT of the
words rows matching `due_sql`. The SELECT writes nothing, so the embedding is
a pure function of the store. -/
def get_review_info (db : KnowledgeDb) (now eod : Int) : Int :=
  ((db.words.countP (due_sql now eod) : Nat) : Int)

/-- The due predicate exactly as the spec words it:
`due(w) = (w.reviewed AND w.next_review_at < boundary AND
w.review_interval >= 1 day) OR (w.next_review_at < now)`, a NULL
`next_review_at` comparing falsy. Stated as a proposition for comparison
with the executable `due_sql` taken from the code. -/
def due_spec (now eod : Int) (w : Word) : Prop :=
  (w.reviewed = true ∧ (∃ n, w.next_review_at = some n ∧ n < eod) ∧ 86400 ≤ w.review_duration)
    ∨ (∃ n, w.next_review_at = some n ∧ n < now)

/-- The eligibility WHERE clause of `review_word` (knowledge.rs lines
558-564), with SQL precedence: the row is selected when
`(next_review_at < eod AND review_duration >= 86400) OR next_review_at < now
 OR reviewed = FALSE`. -/
def word_needs_review (w : Word) (now eod : Int) : Bool :=
  (optLt w.next_review_at eod && decide ((86400 : Int) ≤ w.review_duration))
    || optLt w.next_review_at now || !w.reviewed

/-- Embedding of `review_word` (knowledge.rs lines 552-627): when the word is
eligible (due under the end-of-day window or never reviewed), build the SM-2
state from the stored fields (or the new-item default for an unreviewed
word), step it, and persist the new state with
`next_review_at = now + interval` and `reviewed = TRUE`, setting
`date_first_reviewed` only when it was NULL. An ineligible word is returned
unchanged (RowNotFound path, a silent no-op). -/
def review_word (w : Word) (response_quality : ℚ) (now eod : Int) : Word :=
  if word_needs_review w now eod then
    let sm0 : SuperMemoItem :=
      if !w.reviewed then ⟨0, 0, 5 / 2⟩
      else ⟨w.repitition, w.review_duration, w.e_factor⟩
    let sm := super_memo_2 sm0 response_quality
    { w with
      repitition := sm.repitition,
      e_factor := sm.e_factor,
      review_duration := sm.duration,
      next_review_at := some (now + sm.duration),
      reviewed := true,
      date_first_reviewed :=
        match w.date_first_reviewed with
        | none => some now
        | some d0 => some d0 }
  else w

/-- Result payload of the selector, from `struct IPlusOneSentenceData`
(knowledge.rs lines 122-128). -/
structure IPlusOneSentenceData where
  sentence_text : String
  sentence_id : Int
  sentence_source : String
  words_being_reviewed : List (Int × String)
  words_that_are_new : List (Int × String)
deriving DecidableEq

/-- Rows of `word_sentence INNER JOIN words` for one sentence id: each link
row paired with its existing word row. -/
def joinRows (db : KnowledgeDb) (sid : Int) : List Word :=
  db.links.filterMap (fun l =>
    if l.2 == sid then db.words.find? (fun w => w.id == l.1) else none)

/-- The due-word SUM of the Phase-1 query (knowledge.rs line 401); note that
unlike `get_review_info` it carries no `reviewed = TRUE` conjunct. -/
def words_that_need_reviewing_count (db : KnowledgeDb) (now eod : Int) (sid : Int) : Nat :=
  (joinRows db sid).countP (fun w =>
    (optLt w.next_review_at eod && decide ((86400 : Int) ≤ w.review_duration))
      || optLt w.next_review_at now)

/-- The new-word SUM of both selector queries (knowledge.rs lines 402, 462). -/
def words_that_are_new_count (db : KnowledgeDb) (sid : Int) : Nat :=
  (joinRows db sid).countP (fun w => !w.reviewed)

/-- AVG of `words.count` over the new words of a sentence (knowledge.rs line
463); SQL AVG over an empty set is NULL, never consulted because Phase 2
keeps only groups with at least one new word. -/
def average_new_word_count (db : KnowledgeDb) (sid : Int) : ℚ :=
  let l := (joinRows db sid).filter (fun w => !w.reviewed)
  (l.map (fun w => (w.count : ℚ))).sum / (l.length : ℚ)

/-- Embedding of `get_words_in_sentence_that_need_reviewing` (knowledge.rs
lines 339-365): the words of the sentence passing the due filter (this one
WITH the `reviewed = TRUE` conjunct), as (id, text) pairs. -/
def get_words_in_sentence_that_need_reviewing (db : KnowledgeDb) (now eod : Int)
    (sid : Int) : List (Int × String) :=
  ((joinRows db sid).filter (fun w =>
      (w.reviewed && optLt w.next_review_at eod && decide ((86400 : Int) ≤ w.review_duration))
        || optLt w.next_review_at now)).map (fun w => (w.id, w.text))

/-- Embedding of `get_words_in_sentence_that_are_new` (knowledge.rs lines
367-383). -/
def get_words_in_sentence_that_are_new (db : KnowledgeDb) (sid : Int) :
    List (Int × String) :=
  ((joinRows db sid).filter (fun w => !w.reviewed)).map (fun w => (w.id, w.text))

/-- LIMIT 1 after ORDER BY: keep the first-best element under `better`;
elements equal under `better` keep list position, which stands in for the
`random()` tie-break (the claims proved here do not depend on how ties are
broken). -/
def pickBest {α : Type} (better : α → α → Bool) : List α → Option α
  | [] => none
  | x :: xs => some (xs.foldl (fun b y => if better y b then y else b) x)

/-- ORDER BY of Phase 1: `words_that_need_reviewing DESC,
words_that_are_new ASC` (knowledge.rs lines 410-413). -/
def phase1_better (db : KnowledgeDb) (now eod : Int) (a b : Sentence) : Bool :=
  decide (words_that_need_reviewing_count db now eod b.id
      < words_that_need_reviewing_count db now eod a.id)
    || ((words_that_need_reviewing_count db now eod a.id
          == words_that_need_reviewing_count db now eod b.id)
        && decide (words_that_are_new_count db a.id < words_that_are_new_count db b.id))

/-- ORDER BY of Phase 2: `words_that_are_new ASC, average_new_word_count
DESC` (knowledge.rs lines 471-474). -/
def phase2_better (db : KnowledgeDb) (a b : Sentence) : Bool :=
  decide (words_that_are_new_count db a.id < words_that_are_new_count db b.id)
    || ((words_that_are_new_count db a.id == words_that_are_new_count db b.id)
        && decide (average_new_word_count db b.id < average_new_word_count db a.id))

/-- GROUP BY sentence_id HAVING words_that_are_new = 0: the Phase-1 candidate
groups; a sentence with no join rows forms no group. -/
def phase1_candidates (db : KnowledgeDb) : List Sentence :=
  db.sentences.filter (fun s =>
    !(joinRows db s.id).isEmpty && (words_that_are_new_count db s.id == 0))

/-- GROUP BY sentence_id HAVING words_that_are_new > 0: the Phase-2 candidate
groups. -/
def phase2_candidates (db : KnowledgeDb) : List Sentence :=
  db.sentences.filter (fun s =>
    !(joinRows db s.id).isEmpty && decide (0 < words_that_are_new_count db s.id))

/-- The payload built for a chosen sentence (knowledge.rs lines 436-442 and
490-496). -/
def chosen_payload (db : KnowledgeDb) (now eod : Int) (s : Sentence) :
    IPlusOneSentenceData :=
  ⟨s.text, s.id, s.source,
    get_words_in_sentence_that_need_reviewing db now eod s.id,
    get_words_in_sentence_that_are_new db s.id⟩

/-- The RowNotFound fallback of Phase 2 (knowledge.rs lines 499-512): note
the two placeholder lists containing (0, ""). -/
def sentinel_result : IPlusOneSentenceData :=
  ⟨"No sentence with any new words and no words are scheduled for reviewing.",
    0, "", [(0, "")], [(0, "")]⟩

/-- Embedding of `get_next_sentence_i_plus_one` (knowledge.rs lines 385-519):
Phase 1 picks the best sentence among those with zero new words, and its
payload is returned only when its due-word count is positive; otherwise
Phase 2 picks the best sentence among those with at least one new word, and
when that query finds no row the sentinel is returned. -/
def phase2_result (db : KnowledgeDb) (now eod : Int) : IPlusOneSentenceData :=
  match pickBest (phase2_better db) (phase2_candidates db) with
  | some s => chosen_payload db now eod s
  | none => sentinel_result

def get_next_sentence_i_plus_one (db : KnowledgeDb) (now eod : Int) :
    IPlusOneSentenceData :=
  match pickBest (phase1_better db now eod) (phase1_candidates db) with
  | some s =>
    if 0 < words_that_need_reviewing_count db now eod s.id then
      chosen_payload db now eod s
    else phase2_result db now eod
  | none => phase2_result db now eod

/-- Error kinds of the core, from `enum KnowledgeError` (knowledge.rs lines
134-139); the wrapped payloads are irrelevant to the claims. -/
inductive KnowledgeError where
  | databaseError : KnowledgeError
  | migrationError : KnowledgeError
  | tokenizeError : KnowledgeError
deriving DecidableEq

/-- Outcome of one invocation of the external jumanpp process: either the
spawn/wait failed, or the process ran to completion with an exit status
(true = success) and its stdout lines. -/
inductive AnalyzerResult where
  | failure : AnalyzerResult
  | output : Bool → List String → AnalyzerResult

/-- The stdout parsing loop of `tokenize_sentence_jumanpp` (knowledge.rs
lines 221-247): skip lines starting with the alias marker, require at least
12 space-separated fields, take field index 2 (the dictionary form), and
drop the literal space token. -/
def parse_jumanpp_output (lines : List String) : List String :=
  lines.filterMap (fun line =>
    if line.startsWith "@" then none
    else
      match line.splitOn " " with
      | _ :: _ :: c :: rest =>
        if 9 ≤ rest.length then (if c == "\\␣" then none else some c) else none
      | _ => none)

/-- Embedding of `tokenize_sentence_jumanpp` (knowledge.rs lines 199-258).
The Rust function panics (unwrap / explicit panic) when spawning or waiting
on the process fails, modelled as `none`; when the process exits it ALWAYS
returns `Ok`: with the parsed words on success and with the EMPTY list on a
non-zero exit status, since the parsing loop is guarded by
`output.status.success()` but the final expression is still `Ok(words)`.
No path constructs `KnowledgeError::tokenizeError`. -/
def tokenize_sentence_jumanpp (res : AnalyzerResult) :
    Option (Except KnowledgeError (List String)) :=
  match res with
  | AnalyzerResult.failure => none
  | AnalyzerResult.output ok lines =>
    some (Except.ok (if ok then parse_jumanpp_output lines else []))

/-- The word upsert of `add_words_to_sentence` (knowledge.rs lines 678-685):
`INSERT INTO words(count, frequency, text, date_added) VALUES(1, ?, ?, ?)
 ON CONFLICT(text) DO UPDATE SET count=count + 1`. -/
def upsert_word (freq : String → Int) (now : Int) (db : KnowledgeDb) (w : String) :
    KnowledgeDb :=
  if db.words.any (fun x => x.text == w) then
    { db with words := db.words.map (fun x =>
        if x.text == w then { x with count := x.count + 1 } else x) }
  else
    { db with
      words := db.words ++ [⟨db.next_word_id, w, 1, freq w, false, 0, 5 / 2, 0, none, none, now⟩],
      next_word_id := db.next_word_id + 1 }

/-- The id lookup after the upsert (knowledge.rs lines 688-694). -/
def find_word_id (db : KnowledgeDb) (w : String) : Int :=
  match db.words.find? (fun x => x.text == w) with
  | some x => x.id
  | none => 0

/-- The link upsert (knowledge.rs lines 696-701):
`INSERT OR IGNORE INTO word_sentence(word_id, sentence_id) VALUES(?, ?)`. -/
def add_link (db : KnowledgeDb) (word_id sentence_id : Int) : KnowledgeDb :=
  if db.links.contains (word_id, sentence_id) then db
  else { db with links := db.links ++ [(word_id, sentence_id)] }

/-- Embedding of `add_words_to_sentence` (knowledge.rs lines 668-705): for
each word, upsert the word row, look its id up, and upsert the link row. -/
def add_words_to_sentence (freq : String → Int) (now : Int) (sid : Int)
    (db : KnowledgeDb) (words : List String) : KnowledgeDb :=
  words.foldl (fun d w =>
    let d1 := upsert_word freq now d w
    add_link d1 (find_word_id d1 w) sid) db

/-- Embedding of `add_sentence` (knowledge.rs lines 629-666): tokenize first
(a panic there is `none`, an error aborts before any write), then
`INSERT OR IGNORE INTO sentences` - when the text is already present the
insert returns no row and NO word processing happens; when it is new the
words and links are upserted in the same transaction. -/
def add_sentence (analyzer : String → AnalyzerResult) (freq : String → Int)
    (db : KnowledgeDb) (sentence source : String) (now : Int) :
    Option (Except KnowledgeError KnowledgeDb) :=
  match tokenize_sentence_jumanpp (analyzer sentence) with
  | none => none
  | some (Except.error e) => some (Except.error e)
  | some (Except.ok words) =>
    if db.sentences.any (fun s => s.text == sentence) then some (Except.ok db)
    else
      some (Except.ok (add_words_to_sentence freq now db.next_sentence_id
        { db with
          sentences := db.sentences ++ [⟨db.next_sentence_id, sentence, source, now⟩],
          next_sentence_id := db.next_sentence_id + 1 }
        words))

/-- The sentence loop of `add_text` (knowledge.rs lines 710-713), threading
the store through `add_sentence` and propagating panic or error. -/
def add_text_go (analyzer : String → AnalyzerResult) (freq : String → Int)
    (source : String) (now : Int) :
    KnowledgeDb → List String → Option (Except KnowledgeError KnowledgeDb)
  | db, [] => some (Except.ok db)
  | db, s :: rest =>
    match add_sentence analyzer freq db s source now with
    | none => none
    | some (Except.error e) => some (Except.error e)
    | some (Except.ok db1) => add_text_go analyzer freq source now db1 rest

/-- Embedding of `add_text` (knowledge.rs lines 707-716): split the text into
sentences, add each, and return the number of split sentences. -/
def add_text (analyzer : String → AnalyzerResult) (freq : String → Int)
    (db : KnowledgeDb) (text source : String) (now : Int) :
    Option (Except KnowledgeError (KnowledgeDb × Int)) :=
  match add_text_go analyzer freq source now db (iterate_sentences text) with
  | none => none
  | some (Except.error e) => some (Except.error e)
  | some (Except.ok db1) => some (Except.ok (db1, ((iterate_sentences text).length : Int)))

/-- C4: a lapse (quality below 3) from any state with repetition at least 2
collapses to repetition 1 and a 10-minute interval, leaving the easiness
factor exactly unchanged. -/
theorem c4_lapse_resets_track_not_easiness (r : Nat) (d : Int) (e q : ℚ)
    (hr : 2 ≤ r) (hq : q < 3) :
    super_memo_2 ⟨r, d, e⟩ q = ⟨1, 600, e⟩ := by
  simp [super_memo_2, if_pos hq]

theorem c4_lapse_resets_track_not_easiness_witness :
    (2 ≤ 2 ∧ (2 : ℚ) < 3) ∧ super_memo_2 ⟨2, 86400, 5 / 2⟩ 2 = ⟨1, 600, 5 / 2⟩ :=
  ⟨⟨le_refl 2, by norm_num⟩,
    c4_lapse_resets_track_not_easiness 2 86400 (5 / 2) 2 (le_refl 2) (by norm_num)⟩

/-- C5: a successful review (quality in [3, 5]) from repetition at least 2
updates the easiness factor by the SM-2 formula floored at 1.3, scales the
previous interval by the NEW factor, and increments repetition. -/
theorem c5_success_transition (r : Nat) (d : Int) (e q : ℚ)
    (hr : 2 ≤ r) (he : 13 / 10 ≤ e) (hq3 : 3 ≤ q) (hq5 : q ≤ 5) :
    super_memo_2 ⟨r, d, e⟩ q =
      ⟨r + 1,
        mul_duration d (max (13 / 10) (e + (1 / 10 - (5 - q) * (2 / 25 + (5 - q) * (1 / 50))))),
        max (13 / 10) (e + (1 / 10 - (5 - q) * (2 / 25 + (5 - q) * (1 / 50))))⟩ ∧
    (13 : ℚ) / 10 ≤ max (13 / 10) (e + (1 / 10 - (5 - q) * (2 / 25 + (5 - q) * (1 / 50)))) ∧
    r < r + 1 := by
  obtain ⟨k, rfl⟩ : ∃ k, r = k + 2 := ⟨r - 2, by omega⟩
  refine ⟨?_, le_max_left _ _, Nat.lt_succ_self _⟩
  simp [super_memo_2, if_neg (not_lt.mpr hq3)]

theorem c5_success_transition_witness :
    (2 ≤ 2 ∧ (13 : ℚ) / 10 ≤ 5 / 2 ∧ (3 : ℚ) ≤ 4 ∧ (4 : ℚ) ≤ 5) ∧
    (super_memo_2 ⟨2, 86400, 5 / 2⟩ 4 =
      ⟨2 + 1,
        mul_duration 86400
          (max (13 / 10) (5 / 2 + (1 / 10 - (5 - 4) * (2 / 25 + ((5 : ℚ) - 4) * (1 / 50))))),
        max (13 / 10) (5 / 2 + (1 / 10 - (5 - 4) * (2 / 25 + ((5 : ℚ) - 4) * (1 / 50))))⟩ ∧
      (13 : ℚ) / 10 ≤ max (13 / 10) (5 / 2 + (1 / 10 - (5 - 4) * (2 / 25 + ((5 : ℚ) - 4) * (1 / 50)))) ∧
      2 < 2 + 1) :=
  ⟨⟨le_refl 2, by norm_num, by norm_num, by norm_num⟩,
    c5_success_transition 2 86400 (5 / 2) 4 (le_refl 2) (by norm_num) (by norm_num) (by norm_num)⟩

theorem scanStep_keeps_nonempty (st : ScanState) (c : Char)
    (h : ∀ s ∈ st.sentences, s ≠ []) :
    ∀ s ∈ (scanStep st c).sentences, s ≠ [] := by
  unfold scanStep
  by_cases h1 : open_quotes c <;> simp only [h1, if_true, if_false, Bool.false_eq_true]
  · exact h
  · by_cases h2 : close_quotes c <;> simp only [h2, if_true, if_false, Bool.false_eq_true]
    · exact h
    · by_cases h3 : (st.depth == 0 && terminators c) <;>
        simp only [h3, if_true, if_false, Bool.false_eq_true]
      · by_cases h4 : (rustTrim (st.curr ++ [c]) == []) <;>
          simp only [h4, if_true, if_false, Bool.false_eq_true]
        · exact h
        · intro s hs
          rcases List.mem_append.1 hs with hs | hs
          · exact h s hs
          · rcases List.mem_singleton.1 hs with rfl
            simpa using h4
      · exact h

theorem scanRun_keeps_nonempty :
    ∀ (l : List Char) (st : ScanState), (∀ s ∈ st.sentences, s ≠ []) →
      ∀ s ∈ (l.foldl scanStep st).sentences, s ≠ [] := by
  intro l
  induction l with
  | nil => intro st h; exact h
  | cons c cs ih =>
    intro st h
    exact ih (scanStep st c) (scanStep_keeps_nonempty st c h)

/-- C7: sentence splitting fires at a terminator only at quote depth 0, trims
the span and emits it only when nonempty; on the concrete nested-quote input
exactly the two expected sentences come out, the quoted terminator not
splitting. Every emitted sentence is nonempty. -/
theorem c7_quote_depth_splitting :
    iterate_sentences "「これは。テストです」。次。" = ["「これは。テストです」。", "次。"] ∧
    ∀ (t : String), ∀ s ∈ iterate_sentences t, s ≠ "" := by
  constructor
  · decide
  · intro t s hs
    rcases List.mem_map.1 hs with ⟨l, hl, rfl⟩
    have hne : l ≠ [] := scanRun_keeps_nonempty t.data ⟨0, [], []⟩ (by intro s h; cases h) l hl
    intro hc
    exact hne (congrArg String.data hc)

theorem c7_quote_depth_splitting_witness :
    "次。" ∈ iterate_sentences "次。" ∧ "次。" ≠ "" :=
  ⟨by decide, c7_quote_depth_splitting.2 "次。" "次。" (by decide)⟩

theorem scanStep_depth (st : ScanState) (c : Char) :
    (scanStep st c).depth = depthStep st.depth c := by
  unfold scanStep depthStep
  by_cases h1 : open_quotes c <;> simp only [h1, if_true, if_false, Bool.false_eq_true]
  by_cases h2 : close_quotes c <;> simp only [h2, if_true, if_false, Bool.false_eq_true]
  by_cases h3 : (st.depth == 0 && terminators c) <;>
    simp only [h3, if_true, if_false, Bool.false_eq_true]

theorem scanStep_sentences_of_noFire (st : ScanState) (c : Char)
    (h : (st.depth == 0 && terminators c) = false) :
    (scanStep st c).sentences = st.sentences := by
  unfold scanStep
  by_cases h1 : open_quotes c <;> simp only [h1, if_true, if_false, Bool.false_eq_true]
  by_cases h2 : close_quotes c <;> simp only [h2, if_true, if_false, Bool.false_eq_true]
  simp only [h, Bool.false_eq_true, if_false]

theorem scanRun_sentences_of_noFire :
    ∀ (l : List Char) (st : ScanState), noDepth0Term st.depth l = true →
      (l.foldl scanStep st).sentences = st.sentences := by
  intro l
  induction l with
  | nil => intro st _; rfl
  | cons c cs ih =>
    intro st h
    unfold noDepth0Term at h
    rw [Bool.and_eq_true, Bool.not_eq_true'] at h
    have hdep : noDepth0Term (scanStep st c).depth cs = true := by
      rw [scanStep_depth]; exact h.2
    calc ((c :: cs).foldl scanStep st).sentences
        = (cs.foldl scanStep (scanStep st c)).sentences := rfl
      _ = (scanStep st c).sentences := ih (scanStep st c) hdep
      _ = st.sentences := scanStep_sentences_of_noFire st c h.1

/-- C8 counterexample: at 05:00 local (t = 18000) the hour is at least 4, yet
the boundary is 04:00 of the NEXT day (100800), not 04:00 of the current day
(14400) as the claim states - that reading would even lie in the past; and at
00:01 (t = 60) the boundary keeps the minutes of `now` (04:01, 14460), so it
is not 04:00 sharp either. -/
theorem c8_counterexample :
    hourOf 18000 = 5 ∧
    get_end_of_day_time 18000 = 100800 ∧
    fourAmOfCurrentDay 18000 = 14400 ∧
    ¬(get_end_of_day_time 18000 = fourAmOfCurrentDay 18000) ∧
    fourAmOfCurrentDay 18000 < 18000 ∧
    get_end_of_day_time 60 = 14460 ∧ ¬(get_end_of_day_time 60 = fourAmOfCurrentDay 60) := by
  decide

/-- C8 amended: the boundary sets the hour component to 4 keeping minutes and
seconds - on the current day when the hour of `now` is below 4, else on the
next day - and therefore always lies strictly in the future, at most 24 hours
out. -/
theorem c8_amended_boundary (t : Int) :
    (hourOf t < 4 → get_end_of_day_time t = withHour 4 t) ∧
    (4 ≤ hourOf t → get_end_of_day_time t = withHour 4 (t + 86400)) ∧
    t < get_end_of_day_time t ∧
    get_end_of_day_time t ≤ t + 86400 ∧
    hourOf (get_end_of_day_time t) = 4 ∧
    get_end_of_day_time t % 3600 = t % 3600 := by
  unfold get_end_of_day_time withHour hourOf
  split <;> refine ⟨?_, ?_, ?_, ?_, ?_, ?_⟩ <;> omega

theorem c8_amended_boundary_witness :
    4 ≤ hourOf 18000 ∧ get_end_of_day_time 18000 = withHour 4 (18000 + 86400) :=
  ⟨by decide, (c8_amended_boundary 18000).2.1 (by decide)⟩

/-- C9: the review count is exactly the number of words satisfying the due
predicate of the spec, and the code WHERE clause agrees with the spec
predicate on every word; the query is a pure read by construction. -/
theorem c9_review_count (db : KnowledgeDb) (now eod : Int) :
    get_review_info db now eod = ((db.words.filter (due_sql now eod)).length : Int) ∧
    ∀ w : Word, due_sql now eod w = true ↔ due_spec now eod w := by
  constructor
  · simp [get_review_info, List.countP_eq_length_filter]
  · intro w
    unfold due_sql due_spec optLt
    cases hw : w.next_review_at with
    | none => simp [hw]
    | some n => simp [hw, and_assoc]

theorem super_memo_2_duration_nonneg (item : SuperMemoItem) (q : ℚ)
    (h : 0 ≤ item.duration) : 0 ≤ (super_memo_2 item q).duration := by
  unfold super_memo_2
  by_cases hq : q < 3 <;> simp only [hq, if_true, if_false]
  · norm_num
  · rcases hrep : item.repitition with _ | _ | r
    · norm_num
    · norm_num
    · simp only []
      unfold mul_duration rustTrunc
      have hf : (0 : ℚ) ≤ (item.duration : ℚ) *
          max (13 / 10) (item.e_factor + (1 / 10 - (5 - q) * (2 / 25 + (5 - q) * (1 / 50)))) := by
        apply mul_nonneg
        · exact_mod_cast h
        · exact le_trans (by norm_num) (le_max_left _ _)
      rw [if_pos hf]
      exact Int.floor_nonneg.mpr hf

/-- C2 counterexample: a fresh word is reviewed successfully at t=0 and at
t=2000 (reaching a 1-day interval with next review at 88400, i.e. 00:33 on
day 2), then at 82800 (23:00 on day 1) it is eligible through the end-of-day
window (88400 < 100800 and the interval is at least one day) although 88400
is still in the future; a failing quality 2 stores
next_review_at = 82800 + 600 = 83400 < 88400, so the stored value DECREASES
across successive eligible reviews. -/
theorem c2_counterexample :
    (review_word (review_word ⟨1, "言葉", 1, 0, false, 0, 5 / 2, 0, none, none, 0⟩
        4 0 (get_end_of_day_time 0)) 4 2000 (get_end_of_day_time 2000)).next_review_at
      = some 88400 ∧
    word_needs_review
      (review_word (review_word ⟨1, "言葉", 1, 0, false, 0, 5 / 2, 0, none, none, 0⟩
        4 0 (get_end_of_day_time 0)) 4 2000 (get_end_of_day_time 2000))
      82800 (get_end_of_day_time 82800) = true ∧
    (review_word
      (review_word (review_word ⟨1, "言葉", 1, 0, false, 0, 5 / 2, 0, none, none, 0⟩
        4 0 (get_end_of_day_time 0)) 4 2000 (get_end_of_day_time 2000))
      2 82800 (get_end_of_day_time 82800)).next_review_at = some 83400 ∧
    (83400 : Int) < 88400 := by
  decide

/-- C2 amended: next_review_at is non-decreasing across successive eligible
reviews PROVIDED each review happens no earlier than the stored
next_review_at (and the stored interval is nonnegative, as every stored
interval is); a review taken early through the end-of-day window with a
failing quality can strictly decrease it. -/
theorem c2_amended_monotone_when_not_early (w : Word) (q : ℚ) (now eod : Int)
    (hdur : 0 ≤ w.review_duration)
    (hnow : ∀ n, w.next_review_at = some n → n ≤ now) :
    ∀ n m, w.next_review_at = some n →
      (review_word w q now eod).next_review_at = some m → n ≤ m := by
  intro n m hn hm
  unfold review_word at hm
  by_cases helig : word_needs_review w now eod
  · rw [if_pos helig] at hm
    simp only [] at hm
    have hdur0 : 0 ≤ (super_memo_2
        (if !w.reviewed then ⟨0, 0, 5 / 2⟩ else ⟨w.repitition, w.review_duration, w.e_factor⟩)
        q).duration := by
      apply super_memo_2_duration_nonneg
      by_cases hrev : w.reviewed <;> simp [hrev, hdur]
    have hmm : m = now + (super_memo_2
        (if !w.reviewed then ⟨0, 0, 5 / 2⟩ else ⟨w.repitition, w.review_duration, w.e_factor⟩)
        q).duration := by
      exact (Option.some.inj hm).symm
    have hn2 : n ≤ now := hnow n hn
    omega
  · rw [if_neg helig] at hm
    rw [hn] at hm
    have := Option.some.inj hm
    omega

theorem c2_amended_monotone_when_not_early_witness :
    (0 : Int) ≤ (⟨1, "語", 1, 0, true, 1, 5 / 2, 600, some 50, some 0, 0⟩ : Word).review_duration ∧
    (review_word ⟨1, "語", 1, 0, true, 1, 5 / 2, 600, some 50, some 0, 0⟩
      4 100 0).next_review_at = some 86500 ∧
    (50 : Int) ≤ 86500 :=
  ⟨by decide, by decide,
    c2_amended_monotone_when_not_early ⟨1, "語", 1, 0, true, 1, 5 / 2, 600, some 50, some 0, 0⟩
      4 100 0 (by decide)
      (by intro n hn; have := Option.some.inj hn; omega)
      50 86500 rfl (by decide)⟩

theorem pickBest_foldl_mem {α : Type} (better : α → α → Bool) :
    ∀ (xs : List α) (b : α),
      xs.foldl (fun acc y => if better y acc then y else acc) b ∈ b :: xs := by
  intro xs
  induction xs with
  | nil => intro b; simp
  | cons y ys ih =>
    intro b
    have h1 := ih (if better y b then y else b)
    rcases List.mem_cons.1 h1 with h | h
    · rw [List.foldl_cons, h]
      by_cases hb : better y b <;> simp [hb]
    · rw [List.foldl_cons]
      exact List.mem_cons_of_mem _ (List.mem_cons_of_mem _ h)

theorem pickBest_mem {α : Type} (better : α → α → Bool) (l : List α) (x : α)
    (h : pickBest better l = some x) : x ∈ l := by
  cases l with
  | nil => cases h
  | cons a as =>
    unfold pickBest at h
    have hx := Option.some.inj h
    rw [← hx]
    exact pickBest_foldl_mem better as a

/-- C1 counterexample: on the empty corpus both phases yield nothing and the
returned payload is the sentinel, whose due-word and new-word lists are NOT
empty - each holds the single placeholder pair (0, ""), contradicting the
claimed empty lists. -/
theorem c1_counterexample :
    get_next_sentence_i_plus_one ⟨[], [], [], 1, 1⟩ 0 0 = sentinel_result ∧
    sentinel_result.words_being_reviewed = [(0, "")] ∧
    sentinel_result.words_that_are_new = [(0, "")] ∧
    sentinel_result.words_being_reviewed ≠ [] ∧
    sentinel_result.words_that_are_new ≠ [] := by
  refine ⟨rfl, rfl, rfl, by decide, by decide⟩

/-- C1 amended: whenever no sentence with zero new words has any due word and
no sentence has any new word, the selector returns the sentinel: sentence id
0, the fixed "nothing to review" text, empty source - and due/new word lists
each containing exactly the single placeholder pair (0, "") rather than
being empty. -/
theorem c1_amended_sentinel (db : KnowledgeDb) (now eod : Int)
    (h1 : ∀ s ∈ db.sentences, words_that_are_new_count db s.id = 0 →
      words_that_need_reviewing_count db now eod s.id = 0)
    (h2 : ∀ s ∈ db.sentences, words_that_are_new_count db s.id = 0) :
    get_next_sentence_i_plus_one db now eod = sentinel_result := by
  have hc2 : phase2_candidates db = [] := by
    unfold phase2_candidates
    rw [List.filter_eq_nil_iff]
    intro s hs
    rw [h2 s hs]
    simp
  have hph2 : phase2_result db now eod = sentinel_result := by
    unfold phase2_result
    rw [hc2]
    rfl
  unfold get_next_sentence_i_plus_one
  cases hp : pickBest (phase1_better db now eod) (phase1_candidates db) with
  | none => exact hph2
  | some s =>
    have hmem := pickBest_mem _ _ _ hp
    unfold phase1_candidates at hmem
    rw [List.mem_filter] at hmem
    have hnew : words_that_are_new_count db s.id = 0 := by
      have hb := hmem.2
      rw [Bool.and_eq_true] at hb
      exact beq_iff_eq.mp hb.2
    have hdue : words_that_need_reviewing_count db now eod s.id = 0 :=
      h1 s hmem.1 hnew
    show (if 0 < words_that_need_reviewing_count db now eod s.id then
        chosen_payload db now eod s
      else phase2_result db now eod) = sentinel_result
    rw [hdue, if_neg (lt_irrefl 0)]
    exact hph2

theorem c1_amended_sentinel_witness :
    get_next_sentence_i_plus_one ⟨[], [], [], 1, 1⟩ 5 7 = sentinel_result :=
  c1_amended_sentinel ⟨[], [], [], 1, 1⟩ 5 7
    (by intro s hs; cases hs) (by intro s hs; cases hs)

/-- C3 (code bug evidence): when the analyzer process exits with a NON-ZERO
status, `tokenize_sentence_jumanpp` returns `Ok` with an empty word list -
not a TokenizeError - for every stdout content; when the invocation itself
fails the code panics (modelled `none`) instead of returning a
TokenizeError; and `add_sentence` on a fresh sentence under a failing
analyzer still COMMITS the sentence row (with no word and no link rows),
contradicting the claim that nothing is committed. -/
theorem c3_tokenize_failure_divergence :
    (∀ lines, tokenize_sentence_jumanpp (AnalyzerResult.output false lines)
      = some (Except.ok [])) ∧
    tokenize_sentence_jumanpp AnalyzerResult.failure = none ∧
    add_sentence (fun _ => AnalyzerResult.output false []) (fun _ => 0)
        ⟨[], [], [], 1, 1⟩ "テスト。" "src" 0 =
      some (Except.ok ⟨[], [⟨1, "テスト。", "src", 0⟩], [], 1, 2⟩) ∧
    (some (Except.ok ([] : List String)) ≠
      (some (Except.error KnowledgeError.tokenizeError) :
        Option (Except KnowledgeError (List String)))) := by
  exact ⟨fun lines => rfl, rfl, rfl, fun h => Except.noConfusion (Option.some.inj h)⟩

theorem upsert_word_sentences (f : String → Int) (now : Int) (db : KnowledgeDb)
    (w : String) : (upsert_word f now db w).sentences = db.sentences := by
  unfold upsert_word
  split <;> rfl

theorem add_link_sentences (db : KnowledgeDb) (wid sid : Int) :
    (add_link db wid sid).sentences = db.sentences := by
  unfold add_link
  split <;> rfl

theorem add_words_to_sentence_sentences (f : String → Int) (now : Int) (sid : Int) :
    ∀ (ws : List String) (db : KnowledgeDb),
      (add_words_to_sentence f now sid db ws).sentences = db.sentences := by
  intro ws
  induction ws with
  | nil => intro db; rfl
  | cons w rest ih =>
    intro db
    show (add_words_to_sentence f now sid
      (add_link (upsert_word f now db w) (find_word_id (upsert_word f now db w) w) sid)
      rest).sentences = db.sentences
    rw [ih, add_link_sentences, upsert_word_sentences]

theorem add_sentence_ok_cases (analyzer : String → AnalyzerResult) (f : String → Int)
    (db : KnowledgeDb) (s src : String) (now : Int) (db1 : KnowledgeDb)
    (h : add_sentence analyzer f db s src now = some (Except.ok db1)) :
    (∃ ws, tokenize_sentence_jumanpp (analyzer s) = some (Except.ok ws)) ∧
    (∀ r ∈ db.sentences, r ∈ db1.sentences) ∧
    (∃ r ∈ db1.sentences, r.text = s) := by
  unfold add_sentence at h
  split at h
  · cases h
  · exact absurd (Option.some.inj h) (fun hc => Except.noConfusion hc)
  · rename_i ws htok
    refine ⟨⟨ws, htok⟩, ?_⟩
    split at h
    · rename_i hany
      have hdb : db = db1 := Except.ok.inj (Option.some.inj h)
      subst hdb
      obtain ⟨r, hr, hbeq⟩ := List.any_eq_true.mp hany
      exact ⟨fun r hr => hr, ⟨r, hr, beq_iff_eq.mp hbeq⟩⟩
    · have hdb := Except.ok.inj (Option.some.inj h)
      rw [← hdb, add_words_to_sentence_sentences]
      constructor
      · intro r hr
        exact List.mem_append_left _ hr
      · exact ⟨⟨db.next_sentence_id, s, src, now⟩,
          List.mem_append_right _ (List.mem_singleton_self _), rfl⟩

theorem add_sentence_present_noop (analyzer : String → AnalyzerResult) (f : String → Int)
    (db : KnowledgeDb) (s src : String) (now : Int) (ws : List String)
    (htok : tokenize_sentence_jumanpp (analyzer s) = some (Except.ok ws))
    (hpres : db.sentences.any (fun r => r.text == s) = true) :
    add_sentence analyzer f db s src now = some (Except.ok db) := by
  unfold add_sentence
  rw [htok]
  show (if db.sentences.any (fun r => r.text == s) then some (Except.ok db)
    else some (Except.ok (add_words_to_sentence f now db.next_sentence_id
      { db with
        sentences := db.sentences ++ [⟨db.next_sentence_id, s, src, now⟩],
        next_sentence_id := db.next_sentence_id + 1 } ws))) = some (Except.ok db)
  rw [if_pos hpres]

theorem add_text_go_mono (analyzer : String → AnalyzerResult) (f : String → Int)
    (src : String) (now : Int) :
    ∀ (l : List String) (db db2 : KnowledgeDb),
      add_text_go analyzer f src now db l = some (Except.ok db2) →
      ∀ r ∈ db.sentences, r ∈ db2.sentences := by
  intro l
  induction l with
  | nil =>
    intro db db2 h r hr
    rw [Except.ok.inj (Option.some.inj h)] at hr
    exact hr
  | cons s rest ih =>
    intro db db2 h r hr
    unfold add_text_go at h
    cases hs : add_sentence analyzer f db s src now with
    | none => rw [hs] at h; cases h
    | some e =>
      rw [hs] at h
      cases e with
      | error err => exact absurd (Option.some.inj h) (fun hc => Except.noConfusion hc)
      | ok db1 =>
        exact ih db1 db2 h r ((add_sentence_ok_cases analyzer f db s src now db1 hs).2.1 r hr)

theorem add_text_go_facts (analyzer : String → AnalyzerResult) (f : String → Int)
    (src : String) (now : Int) :
    ∀ (l : List String) (db db2 : KnowledgeDb),
      add_text_go analyzer f src now db l = some (Except.ok db2) →
      ∀ s ∈ l, (∃ ws, tokenize_sentence_jumanpp (analyzer s) = some (Except.ok ws)) ∧
        ∃ r ∈ db2.sentences, r.text = s := by
  intro l
  induction l with
  | nil => intro db db2 h s hs; cases hs
  | cons s0 rest ih =>
    intro db db2 h s hs
    unfold add_text_go at h
    cases hs0 : add_sentence analyzer f db s0 src now with
    | none => rw [hs0] at h; cases h
    | some e =>
      rw [hs0] at h
      cases e with
      | error err => exact absurd (Option.some.inj h) (fun hc => Except.noConfusion hc)
      | ok db1 =>
        rcases List.mem_cons.1 hs with rfl | hs
        · have hcases := add_sentence_ok_cases analyzer f db s src now db1 hs0
          obtain ⟨r, hr, htext⟩ := hcases.2.2
          exact ⟨hcases.1, ⟨r, add_text_go_mono analyzer f src now rest db1 db2 h r hr, htext⟩⟩
        · exact ih db1 db2 h s hs

theorem add_text_go_noop (analyzer : String → AnalyzerResult) (f : String → Int)
    (src : String) (now2 : Int) :
    ∀ (l : List String) (db2 : KnowledgeDb),
      (∀ s ∈ l, ∃ ws, tokenize_sentence_jumanpp (analyzer s) = some (Except.ok ws)) →
      (∀ s ∈ l, ∃ r ∈ db2.sentences, r.text = s) →
      add_text_go analyzer f src now2 db2 l = some (Except.ok db2) := by
  intro l
  induction l with
  | nil => intro db2 _ _; rfl
  | cons s rest ih =>
    intro db2 htok hpres
    obtain ⟨ws, hws⟩ := htok s (List.mem_cons_self s rest)
    obtain ⟨r, hr, htext⟩ := hpres s (List.mem_cons_self s rest)
    have hany : db2.sentences.any (fun x => x.text == s) = true :=
      List.any_eq_true.mpr ⟨r, hr, beq_iff_eq.mpr htext⟩
    unfold add_text_go
    rw [add_sentence_present_noop analyzer f db2 s src now2 ws hws hany]
    exact ih db2 (fun x hx => htok x (List.mem_cons_of_mem s hx))
      (fun x hx => hpres x (List.mem_cons_of_mem s hx))

/-- C6: ingestion is idempotent - when `add_text(T, S)` succeeds, running it
again on the resulting store leaves the store (words, sentences, links, and
rowid counters) completely unchanged and reports the same sentence count; in
particular a sentence whose text is already present triggers no word or link
upserts. -/
theorem c6_idempotent_ingestion (analyzer : String → AnalyzerResult)
    (f : String → Int) (db : KnowledgeDb) (T S : String) (now now2 : Int)
    (db1 : KnowledgeDb) (n : Int)
    (h : add_text analyzer f db T S now = some (Except.ok (db1, n))) :
    add_text analyzer f db1 T S now2 = some (Except.ok (db1, n)) := by
  unfold add_text at h ⊢
  cases hgo : add_text_go analyzer f S now db (iterate_sentences T) with
  | none => rw [hgo] at h; cases h
  | some e =>
    rw [hgo] at h
    cases e with
    | error err => exact absurd (Option.some.inj h) (fun hc => Except.noConfusion hc)
    | ok dbx =>
      have hpair : (dbx, ((iterate_sentences T).length : Int)) = (db1, n) :=
        Except.ok.inj (Option.some.inj h)
      have hdbx : dbx = db1 := congrArg Prod.fst hpair
      have hn : ((iterate_sentences T).length : Int) = n := congrArg Prod.snd hpair
      subst hdbx
      have hfacts := add_text_go_facts analyzer f S now (iterate_sentences T) db dbx hgo
      have hnoop := add_text_go_noop analyzer f S now2 (iterate_sentences T) dbx
        (fun s hs => (hfacts s hs).1) (fun s hs => (hfacts s hs).2)
      rw [hnoop, hn]

theorem c6_idempotent_ingestion_witness :
    add_text (fun _ => AnalyzerResult.output true []) (fun _ => 0)
      ⟨[], [], [], 1, 1⟩ "あ。" "" 0 =
      some (Except.ok (⟨[], [⟨1, "あ。", "", 0⟩], [], 1, 2⟩, 1)) ∧
    add_text (fun _ => AnalyzerResult.output true []) (fun _ => 0)
      ⟨[], [⟨1, "あ。", "", 0⟩], [], 1, 2⟩ "あ。" "" 99 =
      some (Except.ok (⟨[], [⟨1, "あ。", "", 0⟩], [], 1, 2⟩, 1)) :=
  ⟨rfl,
    c6_idempotent_ingestion (fun _ => AnalyzerResult.output true []) (fun _ => 0)
      ⟨[], [], [], 1, 1⟩ "あ。" "" 0 99 ⟨[], [⟨1, "あ。", "", 0⟩], [], 1, 2⟩ 1 rfl⟩

theorem string_append_data (s t : String) : (s ++ t).data = s.data ++ t.data := by
  cases s
  cases t
  rfl

/-- C10: trailing input is discarded - appending a suffix on which the
scanner never reaches a terminator at depth 0 changes nothing about the
emitted sentences, and a text whose scan fires no depth-0 terminator at all
splits into no sentences, so `add_text` on it returns 0 and leaves the store
untouched. -/
theorem c10_trailing_input_discarded :
    (∀ t u : String,
      noDepth0Term ((t.data.foldl scanStep ⟨0, [], []⟩).depth) u.data = true →
      iterate_sentences (t ++ u) = iterate_sentences t) ∧
    (∀ (analyzer : String → AnalyzerResult) (f : String → Int) (db : KnowledgeDb)
      (text source : String) (now : Int),
      noDepth0Term 0 text.data = true →
      add_text analyzer f db text source now = some (Except.ok (db, 0))) := by
  constructor
  · intro t u h
    unfold iterate_sentences
    rw [string_append_data, List.foldl_append,
      scanRun_sentences_of_noFire u.data (t.data.foldl scanStep ⟨0, [], []⟩) h]
  · intro analyzer f db text source now h
    have hsent : (text.data.foldl scanStep ⟨0, [], []⟩).sentences = [] :=
      scanRun_sentences_of_noFire text.data ⟨0, [], []⟩ h
    have hiter : iterate_sentences text = [] := by
      unfold iterate_sentences
      rw [hsent]
      rfl
    unfold add_text
    rw [hiter]
    rfl

theorem c10_trailing_input_discarded_witness :
    (noDepth0Term ((("あ。" : String).data.foldl scanStep ⟨0, [], []⟩).depth)
        ("次" : String).data = true ∧
      iterate_sentences ("あ。" ++ "次") = iterate_sentences "あ。") ∧
    (noDepth0Term 0 ("次" : String).data = true ∧
      add_text (fun _ => AnalyzerResult.output true []) (fun _ => 0)
        ⟨[], [], [], 1, 1⟩ "次" "s" 0 = some (Except.ok (⟨[], [], [], 1, 1⟩, 0))) :=
  ⟨⟨by decide, c10_trailing_input_discarded.1 "あ。" "次" (by decide)⟩,
    ⟨by decide, c10_trailing_input_discarded.2 (fun _ => AnalyzerResult.output true [])
      (fun _ => 0) ⟨[], [], [], 1, 1⟩ "次" "s" 0 (by decide)⟩⟩
